import Mathlib

/-!
Verification of kubectl-ai core components against their specification.

Shallow embedding of the Go sources:
* `gollm` provider registry, retry decorator and error classification
  (`factory.go` / retry code in the `gollm` package);
* the built-in `bash` tool (`pkg/tools/bash_tool.go`);
* the Gemini and Azure OpenAI chat adapters' `SetFunctionDefinitions`;
* the file-backed chat message store (`pkg/sessions/file_chat_message_store.go`);
* the OpenAI schema translation and Bedrock region resolution
  (modelled from the spec; only their tests are in the tree).

Go machine integers are modelled as `Int` (overflow is irrelevant at the
values involved), Go `nil`-able values as `Option`, and Go maps as
association lists.  Process-level effects (spawning a shell, network
calls, panics) are reified as constructors of explicit outcome types.
-/

namespace KubectlAI

/-! ### Retry decorator (`gollm` package, `Retry`)

The Go function is

```
func Retry[T any](ctx, config RetryConfig, isRetryable IsRetryableFunc,
     operation func(ctx) (T, error)) (T, error)
```

The loop body runs for `attempt := 1; attempt <= config.MaxAttempts`.
After a failed call it checks `ctx.Done()` (non-blocking select), then
retryability, then whether this was the last attempt, then sleeps
(observing `ctx.Done()` during the sleep) and retries.

The embedding abstracts real time: the operation's outcome at each
attempt index is a function `op : Nat → Except E T`, and the two points
where the context can be observed cancelled are the predicates
`ctxDoneAfter` (the non-blocking select right after a failed call) and
`ctxDoneDuringWait` (the select racing the backoff timer).  The backoff
duration fields of `RetryConfig` (`InitialBackoff`, `MaxBackoff`,
`BackoffFactor`, `Jitter`) only determine how long the sleep lasts, so
they do not appear in the outcome and are omitted from the record. -/

/-- `RetryConfig.MaxAttempts` from the Go `RetryConfig` struct (a Go `int`,
so it can be zero or negative). -/
structure RetryConfig where
  maxAttempts : Int
  deriving Repr, DecidableEq

/-- Outcome of `Retry`, reifying the four `return` sites of the Go code:
success, `ctx.Err()`, a non-retryable error returned unchanged, and the
final `fmt.Errorf("operation failed after %d attempts: %w", config.MaxAttempts, lastErr)`
which records the reported attempt count and the wrapped last error
(`none` models wrapping a `nil` error). -/
inductive RetryOutcome (T E : Type) where
  | success (t : T)
  | ctxError
  | failed (e : E)
  | exhausted (reportedAttempts : Int) (lastErr : Option E)
  deriving Repr, DecidableEq

/-- The attempt loop of Go `Retry`.  `attempt` is the 1-based attempt
counter, `remaining` the number of loop iterations still allowed
(`MaxAttempts - attempt + 1` in the Go code), `lastErr` the stored last
error.  Returns the outcome together with the number of times the
operation was invoked. -/
def retryLoop {T E : Type} (maxA : Int) (op : Nat → Except E T)
    (isRetryable : E → Bool) (ctxDoneAfter ctxDoneDuringWait : Nat → Bool) :
    Nat → Nat → Option E → RetryOutcome T E × Nat
  | _, 0, lastErr => (.exhausted maxA lastErr, 0)
  | attempt, remaining + 1, _ =>
    match op attempt with
    | .ok t => (.success t, 1)
    | .error e =>
      if ctxDoneAfter attempt then (.ctxError, 1)
      else if isRetryable e = false then (.failed e, 1)
      else if remaining = 0 then (.exhausted maxA (some e), 1)
      else if ctxDoneDuringWait attempt then (.ctxError, 1)
      else
        let r := retryLoop maxA op isRetryable ctxDoneAfter ctxDoneDuringWait
          (attempt + 1) remaining (some e)
        (r.1, r.2 + 1)

/-- Go `Retry`: runs the attempt loop starting at attempt 1 with
`MaxAttempts` iterations allowed (none when `MaxAttempts < 1`, matching
the `for attempt := 1; attempt <= config.MaxAttempts` header). -/
def RetryGo {T E : Type} (config : RetryConfig) (op : Nat → Except E T)
    (isRetryable : E → Bool) (ctxDoneAfter ctxDoneDuringWait : Nat → Bool) :
    RetryOutcome T E × Nat :=
  retryLoop config.maxAttempts op isRetryable ctxDoneAfter ctxDoneDuringWait
    1 config.maxAttempts.toNat none

/-- Attempt `j` neither exits nor sleeps into a cancellation: the
operation fails retryably and the context is not observed cancelled at
either observation point.  This is the condition under which the Go loop
proceeds from attempt `j` to attempt `j + 1`. -/
def CleanAt {T E : Type} (op : Nat → Except E T) (isRetryable : E → Bool)
    (ctxDoneAfter ctxDoneDuringWait : Nat → Bool) (j : Nat) : Prop :=
  ∃ e, op j = .error e ∧ isRetryable e = true ∧
    ctxDoneAfter j = false ∧ ctxDoneDuringWait j = false

/-! ### Error classification (`gollm` package, `DefaultIsRetryableError`) -/

/-- A Go `error` value: an `*APIError` (status code plus a wrapped error),
a `net.Error` (timeout flag plus a wrapped error), or any other error.
`errors.As` walks the `Unwrap` chain, modelled by the `wrapped` fields. -/
inductive GoError where
  | api (statusCode : Int) (wrapped : Option GoError)
  | net (timeout : Bool) (wrapped : Option GoError)
  | basic (msg : String) (wrapped : Option GoError)

/-- `errors.As(err, &apiErr)`: the status code of the first `*APIError`
in the unwrap chain, if any. -/
def findAPIError : GoError → Option Int
  | .api code _ => some code
  | .net _ none => none
  | .net _ (some w) => findAPIError w
  | .basic _ none => none
  | .basic _ (some w) => findAPIError w

/-- `errors.As(err, &netErr)`: the timeout flag of the first `net.Error`
in the unwrap chain, if any. -/
def findNetError : GoError → Option Bool
  | .net t _ => some t
  | .api _ none => none
  | .api _ (some w) => findNetError w
  | .basic _ none => none
  | .basic _ (some w) => findNetError w

/-- Go `DefaultIsRetryableError`: `nil` is not retryable; an `APIError`
found by `errors.As` decides via the status-code switch
(`http.StatusConflict`, `StatusTooManyRequests`, `StatusInternalServerError`,
`StatusBadGateway`, `StatusServiceUnavailable`, `StatusGatewayTimeout`,
i.e. 409, 429, 500, 502, 503, 504); otherwise a `net.Error` with its
timeout flag set is retryable; everything else is not. -/
def DefaultIsRetryableError (err : Option GoError) : Bool :=
  match err with
  | none => false
  | some e =>
    match findAPIError e with
    | some code =>
      if code = 409 ∨ code = 429 ∨ code = 500 ∨ code = 502 ∨ code = 503 ∨ code = 504
      then true else false
    | none =>
      match findNetError e with
      | some t => t
      | none => false

/-- The retryability predicate exactly as claim C4 words it: APIError
status 408, 409, 429 or any 5xx, or a network error with the timeout
flag set.  Kept separate from `DefaultIsRetryableError` (which is the
code's actual switch) so the two can be compared. -/
def claimC4Retryable (err : Option GoError) : Bool :=
  match err with
  | none => false
  | some e =>
    match findAPIError e with
    | some code =>
      if code = 408 ∨ code = 409 ∨ code = 429 ∨ (500 ≤ code ∧ code ≤ 599)
      then true else false
    | none =>
      match findNetError e with
      | some t => t
      | none => false

/-! ### Provider lookup (`gollm` package, top-level `NewClient`)

```
func NewClient(ctx context.Context, providerID string) (Client, error) {
    if providerID == "" {
        s := os.Getenv("LLM_CLIENT")
        if s == "" { return nil, fmt.Errorf("LLM_CLIENT is not set") }
        providerID = s
    }
    return globalRegistry.NewClient(ctx, providerID)
}
```

The environment is a function `env : String → String` (Go `os.Getenv`
returns `""` for an unset variable) and the registry dispatch
`globalRegistry.NewClient` is a parameter `registryNew`, since `NewClient`
only forwards to it. -/

def NewClientGo (providerID : String) (env : String → String)
    (registryNew : String → Except String String) : Except String String :=
  if providerID = "" then
    let s := env "LLM_CLIENT"
    if s = "" then .error "LLM_CLIENT is not set"
    else registryNew s
  else registryNew providerID

/-! ### Built-in `bash` tool (`pkg/tools/bash_tool.go`, `BashTool.Run`)

```
func (t *BashTool) Run(ctx context.Context, args map[string]any) (any, error) {
    kubeconfig := ctx.Value("kubeconfig").(string)
    workDir := ctx.Value("work_dir").(string)
    command := args["command"].(string)
    if strings.Contains(command, "kubectl edit") { return &ExecResult{Error: ...}, nil }
    if strings.Contains(command, "kubectl port-forward") { return &ExecResult{Error: ...}, nil }
    cmd = exec.CommandContext(ctx, bashBin, "-c", command)
    cmd.Dir = workDir
    if kubeconfig != "" { cmd.Env = append(cmd.Env, "KUBECONFIG="+expanded) }
    return executeCommand(cmd)
}
```

A Go `any` value is `GoValue`; `ctx.Value` returning the untyped `nil`
(key absent) is `none`.  The unchecked type assertion `.(string)`
panics unless the value is a string, reified by the `panics` outcome.
Reaching `executeCommand` is reified as the `spawn` outcome carrying the
command line, working directory and the `KUBECONFIG` entry (shell-variable
expansion of the kubeconfig path is environment-dependent and the claims
do not depend on it, so `spawn` records the unexpanded path). -/

/-- A dynamically typed Go value stored in a `map[string]any` or a
`context.Context`. -/
inductive GoValue where
  | str (s : String)
  | num (n : Int)
  | boolean (b : Bool)
  | null
  deriving Repr, DecidableEq

/-- The unchecked Go type assertion `v.(string)` on a possibly-absent
value: yields the string, or `none` where Go would panic. -/
def goAssertString : Option GoValue → Option String
  | some (.str s) => some s
  | _ => none

/-- Substring occurrence on character lists: `pat` occurs in `hay` iff it
is a prefix of some suffix of `hay`. -/
def listContainsSub : List Char → List Char → Bool
  | hay, pat =>
    if pat.isPrefixOf hay then true
    else
      match hay with
      | [] => false
      | _ :: t => listContainsSub t pat

/-- Go `strings.Contains(s, pat)`: `pat` occurs as a contiguous substring
of `s` (the empty pattern is contained in every string). -/
def goStringsContains (s pat : String) : Bool :=
  listContainsSub s.data pat.data

/-- Go `ExecResult` from `bash_tool.go` (zero values for unset fields). -/
structure ExecResult where
  error : String := ""
  stdout : String := ""
  stderr : String := ""
  exitCode : Int := 0
  deriving Repr, DecidableEq

/-- What `BashTool.Run` does, up to the point where a process would be
spawned: panic on a failed type assertion, return a structured
`ExecResult` without spawning, or hand the command to `executeCommand`. -/
inductive BashRunOutcome where
  | panics
  | result (r : ExecResult)
  | spawn (command : String) (dir : String) (kubeconfigEnv : Option String)
  deriving Repr, DecidableEq

/-- The rejection message for `kubectl edit` in `BashTool.Run`. -/
def interactiveModeError : String :=
  "interactive mode not supported for kubectl, please use non-interactive commands"

/-- The rejection message for `kubectl port-forward` in `BashTool.Run`. -/
def portForwardError : String :=
  "port-forwarding is not allowed because assistant is running in an unattended mode, please try some other alternative"

/-- `BashTool.Run`: the two context lookups and the argument lookup with
their unchecked string assertions, then the two substring checks, then
the spawn. -/
def BashToolRun (ctxKubeconfig ctxWorkDir : Option GoValue)
    (args : List (String × GoValue)) : BashRunOutcome :=
  match goAssertString ctxKubeconfig with
  | none => .panics
  | some kubeconfig =>
    match goAssertString ctxWorkDir with
    | none => .panics
    | some workDir =>
      match goAssertString (args.lookup "command") with
      | none => .panics
      | some command =>
        if goStringsContains command "kubectl edit" then
          .result { error := interactiveModeError }
        else if goStringsContains command "kubectl port-forward" then
          .result { error := portForwardError }
        else
          .spawn command workDir (if kubeconfig = "" then none else some kubeconfig)

/-! ### The uniform `Schema` and `FunctionDefinition` (`gollm` package)

`Schema` is the provider-agnostic JSON-Schema-like structure: a type tag
(`object`, `string`, `number`, `integer`, `boolean`, `array` — a Go
string, so unknown tags are representable), a description, an optional
property map (`nil` vs empty map is significant for serialization, hence
`Option`), a required list and an optional item schema.  Go's map is an
association list here. -/

abbrev SchemaType := String

def TypeObject : SchemaType := "object"
def TypeString : SchemaType := "string"
def TypeNumber : SchemaType := "number"
def TypeInteger : SchemaType := "integer"
def TypeBoolean : SchemaType := "boolean"
def TypeArray : SchemaType := "array"

inductive Schema where
  | mk (type : SchemaType) (description : String)
       (properties : Option (List (String × Schema)))
       (required : List String)
       (items : Option Schema)

def Schema.type : Schema → SchemaType
  | .mk t _ _ _ _ => t

def Schema.description : Schema → String
  | .mk _ d _ _ _ => d

def Schema.properties : Schema → Option (List (String × Schema))
  | .mk _ _ p _ _ => p

def Schema.required : Schema → List String
  | .mk _ _ _ r _ => r

def Schema.items : Schema → Option Schema
  | .mk _ _ _ _ i => i

/-- `gollm.FunctionDefinition` (name, description, parameter schema). -/
structure FunctionDefinition where
  name : String
  description : String
  parameters : Schema

/-! ### Gemini chat (`gollm/gemini.go`)

`toGeminiSchema` translates the uniform schema into `genai.Schema`,
handling only the `object` and `string` type tags (anything else is an
error), copying description and required, and descending into the
property map.  `GeminiChat.SetFunctionDefinitions` converts every
definition (returning the first conversion error with the tool list
untouched) and then executes

```
c.model.Tools = append(c.model.Tools, &genai.Tool{FunctionDeclarations: geminiFunctionDefinitions})
```

so the chat's tool list is a list of tool groups that only ever grows. -/

inductive GeminiSchema where
  | mk (type : SchemaType) (description : String) (required : List String)
       (properties : Option (List (String × GeminiSchema)))

mutual

def toGeminiSchema : Schema → Except String GeminiSchema
  | .mk ty desc props req _items =>
    if ty = TypeObject ∨ ty = TypeString then
      match props with
      | none => .ok (.mk ty desc req none)
      | some l =>
        match toGeminiProps l with
        | .error e => .error e
        | .ok l' => .ok (.mk ty desc req (some l'))
    else
      .error ("type \"" ++ ty ++ "\" not handled by genai.Schema")

def toGeminiProps : List (String × Schema) → Except String (List (String × GeminiSchema))
  | [] => .ok []
  | (k, v) :: rest =>
    match toGeminiSchema v with
    | .error e => .error e
    | .ok v' =>
      match toGeminiProps rest with
      | .error e => .error e
      | .ok rest' => .ok ((k, v') :: rest')

end

/-- `genai.FunctionDeclaration`. -/
structure GeminiFunctionDeclaration where
  name : String
  description : String
  parameters : GeminiSchema

/-- The conversion loop at the top of `GeminiChat.SetFunctionDefinitions`:
first conversion error aborts the whole call. -/
def convertGeminiDefs : List FunctionDefinition → Except String (List GeminiFunctionDeclaration)
  | [] => .ok []
  | d :: rest =>
    match toGeminiSchema d.parameters with
    | .error e => .error e
    | .ok p =>
      match convertGeminiDefs rest with
      | .error e => .error e
      | .ok rest' => .ok ({ name := d.name, description := d.description, parameters := p } :: rest')

/-- `GeminiChat.SetFunctionDefinitions` acting on the chat's
`model.Tools` (a list of tool groups, each a list of function
declarations).  Returns the new tool list and the Go error. -/
def geminiSetFunctionDefinitions (tools : List (List GeminiFunctionDeclaration))
    (defs : List FunctionDefinition) :
    List (List GeminiFunctionDeclaration) × Option String :=
  match convertGeminiDefs defs with
  | .error e => (tools, some e)
  | .ok decls => (tools ++ [decls], none)

/-- The catalog a Gemini chat advertises to the model: every function
declaration of every tool group, in order. -/
def geminiAdvertised (tools : List (List GeminiFunctionDeclaration)) :
    List GeminiFunctionDeclaration :=
  tools.flatten

/-! ### Azure OpenAI chat (`AzureOpenAIChat.SetFunctionDefinitions`)

```
func (c *AzureOpenAIChat) SetFunctionDefinitions(functionDefinitions []*FunctionDefinition) error {
    var tools []azopenai.ChatCompletionsToolDefinitionClassification
    for _, functionDefinition := range functionDefinitions {
        tools = append(tools, &azopenai.ChatCompletionsFunctionToolDefinition{Function: fnDefToAzureOpenAITool(functionDefinition)})
    }
    c.tools = tools
    return nil
}
```

`fnDefToAzureOpenAITool` serializes each top-level property as its type
tag plus description, and includes the required list only when it is
non-empty. -/

structure AzureFunctionTool where
  name : String
  description : String
  paramProperties : List (String × SchemaType × String)
  required : Option (List String)

def fnDefToAzureOpenAITool (fnDef : FunctionDefinition) : AzureFunctionTool :=
  { name := fnDef.name
    description := fnDef.description
    paramProperties :=
      (fnDef.parameters.properties.getD []).map fun kv =>
        (kv.1, kv.2.type, kv.2.description)
    required :=
      if fnDef.parameters.required = [] then none else some fnDef.parameters.required }

/-- `AzureOpenAIChat.SetFunctionDefinitions` acting on the chat's
`tools` field: a fresh list is built and assigned, discarding the old
catalog. -/
def azureSetFunctionDefinitions (_tools : List AzureFunctionTool)
    (defs : List FunctionDefinition) : List AzureFunctionTool :=
  defs.map fnDefToAzureOpenAITool

/-! ### OpenAI schema translation (`convertSchemaForOpenAI`)

Modelled from the spec: the implementation of `convertSchemaForOpenAI`
is not in the tree (only its test `TestConvertSchemaForOpenAI` is).
Per spec §4.3 and the test's expectations: a `nil` schema becomes an
object with an initialized (non-nil) empty property map; `string`,
`number` and `boolean` pass through; `integer` is downgraded to
`number`; an `array` keeps its type and recursively converts its item
schema, defaulting a missing item schema to `string`; everything else
(`object`, an empty tag, an unknown tag) becomes an `object` whose
property map is recursively converted and initialized to the empty map
when `nil`, with description and required preserved throughout. -/

mutual

def convertSchemaOpenAI : Schema → Schema
  | .mk ty desc props req items =>
    if ty = TypeString ∨ ty = TypeNumber ∨ ty = TypeBoolean then
      .mk ty desc props req items
    else if ty = TypeInteger then
      .mk TypeNumber desc props req items
    else if ty = TypeArray then
      .mk TypeArray desc props req (some (convertItemsOpenAI items))
    else
      .mk TypeObject desc (some (convertPropsOpenAI props)) req items

def convertItemsOpenAI : Option Schema → Schema
  | none => .mk TypeString "" none [] none
  | some i => convertSchemaOpenAI i

def convertPropsOpenAI : Option (List (String × Schema)) → List (String × Schema)
  | none => []
  | some [] => []
  | some ((k, v) :: rest) => (k, convertSchemaOpenAI v) :: convertPropsOpenAI (some rest)

end

/-- Modelled from the spec: `convertSchemaForOpenAI` on a possibly-nil
schema pointer (the test feeds it `nil` and expects an object with an
initialized empty property map). -/
def convertSchemaForOpenAI : Option Schema → Schema
  | none => .mk TypeObject "" (some []) [] none
  | some s => convertSchemaOpenAI s

mutual

/-- A schema in the uniform form: every type tag, recursively, is one of
the six the data model admits. -/
def validSchema : Schema → Bool
  | .mk ty _ props _ items =>
    decide (ty = TypeObject ∨ ty = TypeString ∨ ty = TypeNumber ∨ ty = TypeInteger ∨
      ty = TypeBoolean ∨ ty = TypeArray)
    && validProps props && validItems items

/-- Recursive validity of an optional property map. -/
def validProps : Option (List (String × Schema)) → Bool
  | none => true
  | some [] => true
  | some ((_, v) :: rest) => validSchema v && validProps (some rest)

/-- Recursive validity of an optional item schema. -/
def validItems : Option Schema → Bool
  | none => true
  | some i => validSchema i

end

/-! ### Bedrock region resolution

Modelled from the spec: the Bedrock client constructor is not in the
tree (only `TestBedrockClient` and `bedrock/config.go` are).  Per spec
§4.3: «if both the provider URI host and an environment-variable region
are present and disagree, fail with a `region mismatch` error; if only
one is present, use it; if neither, use the adapter default».  The
adapter default region is `DefaultOptions.Region = "us-west-2"` from
`gollm/bedrock/config.go`.  Construction is pure: an error is produced
before any client exists, so no network call can have been attempted. -/

/-- `DefaultOptions.Region` from `gollm/bedrock/config.go`. -/
def defaultBedrockRegion : String := "us-west-2"

/-- Modelled from the spec: resolve the effective region from the region
named by the provider URI host and the region named by the `AWS_REGION`
environment variable (absent values are `none`). -/
def resolveBedrockRegion (urlRegion envRegion : Option String) : Except String String :=
  match urlRegion, envRegion with
  | some r1, some r2 =>
    if r1 = r2 then .ok r1
    else .error ("region mismatch: provider URI names " ++ r1 ++ " but AWS_REGION is " ++ r2)
  | some r1, none => .ok r1
  | none, some r2 => .ok r2
  | none, none => .ok defaultBedrockRegion

/-- The part of the Bedrock client visible to the region claim. -/
structure BedrockClient where
  region : String
  deriving Repr, DecidableEq

/-- Modelled from the spec: client construction resolves the region
first and only builds a client when resolution succeeded. -/
def newBedrockClient (urlRegion envRegion : Option String) : Except String BedrockClient :=
  match resolveBedrockRegion urlRegion envRegion with
  | .error e => .error e
  | .ok r => .ok { region := r }

/-! ### File-backed chat message store (`pkg/sessions/file_chat_message_store.go`)

`AddChatMessage` opens the history file with
`O_APPEND|O_CREATE|O_WRONLY`, marshals the message and writes
`bytes + '\n'`.  The history file is therefore a sequence of entries; an
entry is a well-formed serialized message, or bytes that are valid JSON
but do not decode into a message (a type error), or bytes that are not
valid JSON at all (a syntax error — e.g. a truncated line).

`ChatMessages` runs

```
scanner := json.NewDecoder(f)
for scanner.More() {
    var message api.Message
    if err := scanner.Decode(&message); err != nil {
        continue // skip malformed messages
    }
    messages = append(messages, &message)
}
```

`encoding/json.Decoder` semantics, reflected by the loop below: on a
type error `Decode` returns the error but the stream advances past the
value, so `continue` really skips it.  On a *syntax* error `readValue`
stores the error in `dec.err` and does not advance `dec.scanp`; every
later `Decode` returns the stored error, while `More` (which only peeks
at the buffered bytes and ignores `dec.err`) keeps returning `true`.
The loop is modelled with explicit fuel; `none` means the Go loop has
not terminated within that many iterations (and, as the theorems show,
it never terminates once a syntax error is hit with input left). -/

/-- One entry of the history file, as the JSON decoder classifies it. -/
inductive HistEntry (M : Type) where
  | ok (m : M)
  | badType
  | badSyntax
  deriving Repr, DecidableEq

/-- `AddChatMessage`: append-create the serialized message plus a
newline (serializing an `api.Message` succeeds, producing a well-formed
entry). -/
def addChatMessage {M : Type} (file : List (HistEntry M)) (m : M) : List (HistEntry M) :=
  file ++ [.ok m]

/-- The `for scanner.More() { ... }` loop of `ChatMessages`.  `stuck`
models `dec.err` being set by a syntax error (in which case the input
does not advance), `acc` the accumulated messages in reverse.  Fuel
bounds the number of loop iterations; exhausting it yields `none`. -/
def chatMessagesLoop {M : Type} : Nat → List (HistEntry M) → Bool → List M → Option (List M)
  | 0, _, _, _ => none
  | _ + 1, [], _, acc => some acc.reverse
  | fuel + 1, e :: rest, true, acc => chatMessagesLoop fuel (e :: rest) true acc
  | fuel + 1, e :: rest, false, acc =>
    match e with
    | .ok m => chatMessagesLoop fuel rest false (m :: acc)
    | .badType => chatMessagesLoop fuel rest false acc
    | .badSyntax => chatMessagesLoop fuel (e :: rest) true acc

/-- `ChatMessages` on a history file, with the given iteration budget. -/
def chatMessagesGo {M : Type} (fuel : Nat) (file : List (HistEntry M)) : Option (List M) :=
  chatMessagesLoop fuel file false []

/-! ## Theorems -/

/-- C7: `NewClient(ctx, providerID)` with an empty provider id reads the
identifier from `LLM_CLIENT`; if that is also empty it returns the
diagnostic error `LLM_CLIENT is not set` and no client; a non-empty
provider id is dispatched to the registry as-is and the environment is
never consulted (the result is independent of it). -/
theorem newClient_provider_selection (env : String → String)
    (registryNew : String → Except String String) (providerID : String) :
    (providerID = "" → env "LLM_CLIENT" = "" →
      NewClientGo providerID env registryNew = .error "LLM_CLIENT is not set") ∧
    (providerID = "" → env "LLM_CLIENT" ≠ "" →
      NewClientGo providerID env registryNew = registryNew (env "LLM_CLIENT")) ∧
    (providerID ≠ "" →
      NewClientGo providerID env registryNew = registryNew providerID ∧
      ∀ env₂, NewClientGo providerID env₂ registryNew =
        NewClientGo providerID env registryNew) := by
  refine ⟨fun h1 h2 => ?_, fun h1 h2 => ?_, fun h1 => ⟨?_, fun env₂ => ?_⟩⟩ <;>
    simp [NewClientGo, h1, *]

/-- Witness for C7: with an empty provider id and an empty environment,
`NewClient` fails with the `LLM_CLIENT is not set` diagnostic. -/
theorem newClient_provider_selection_witness :
    NewClientGo "" (fun _ => "") (fun s => .ok s) = .error "LLM_CLIENT is not set" :=
  (newClient_provider_selection (fun _ => "") (fun s => .ok s) "").1 rfl rfl

/-- C10: with `MaxAttempts < 1` the attempt loop body is never entered,
so `Retry` performs zero invocations of the operation and returns the
final error reporting failure after `MaxAttempts` attempts while
wrapping a `nil` (`none`) last error. -/
theorem retry_zero_attempts {T E : Type} (cfg : RetryConfig) (op : Nat → Except E T)
    (isRetryable : E → Bool) (ctxDoneAfter ctxDoneDuringWait : Nat → Bool)
    (h : cfg.maxAttempts < 1) :
    RetryGo cfg op isRetryable ctxDoneAfter ctxDoneDuringWait =
      (.exhausted cfg.maxAttempts none, 0) := by
  have h0 : cfg.maxAttempts.toNat = 0 := by omega
  simp [RetryGo, h0, retryLoop]

/-- Witness for C10: a configuration with `MaxAttempts = 0` and an
always-failing operation yields the exhausted error with zero
invocations. -/
theorem retry_zero_attempts_witness :
    RetryGo ⟨0⟩ (fun _ => (Except.error 0 : Except Nat Nat)) (fun _ => true)
      (fun _ => false) (fun _ => false) = (.exhausted 0 none, 0) :=
  retry_zero_attempts ⟨0⟩ (fun _ => (Except.error 0 : Except Nat Nat)) (fun _ => true)
    (fun _ => false) (fun _ => false) (by decide)

/-- C4 is refuted at HTTP 408: the claim classifies an `APIError` with
status 408 as retryable, but `DefaultIsRetryableError` returns `false`
for it (the code's switch lists only 409, 429, 500, 502, 503 and 504,
and likewise excludes 5xx codes such as 501 outside that list). -/
theorem defaultIsRetryable_408_counterexample :
    claimC4Retryable (some (.api 408 none)) = true ∧
    DefaultIsRetryableError (some (.api 408 none)) = false :=
  ⟨rfl, rfl⟩

/-- C4 (amended): `DefaultIsRetryableError` classifies an error as
retryable exactly when the first `APIError` of its unwrap chain has
status 409, 429, 500, 502, 503 or 504, or, when no `APIError` is in the
chain, the first network error of the chain has its timeout flag set;
every other error, including `nil`, status 408 and 5xx statuses outside
the list, is non-retryable. -/
theorem defaultIsRetryable_characterization (err : Option GoError) :
    DefaultIsRetryableError err = true ↔
      ∃ e, err = some e ∧
        ((∃ c, findAPIError e = some c ∧
            (c = 409 ∨ c = 429 ∨ c = 500 ∨ c = 502 ∨ c = 503 ∨ c = 504)) ∨
          (findAPIError e = none ∧ findNetError e = some true)) := by
  cases err with
  | none => simp [DefaultIsRetryableError]
  | some e =>
    simp only [DefaultIsRetryableError, Option.some.injEq]
    cases hA : findAPIError e with
    | none =>
      cases hN : findNetError e with
      | none => simp [hA, hN]
      | some t => cases t <;> simp [hA, hN]
    | some code => by_cases hc : code = 409 ∨ code = 429 ∨ code = 500 ∨
        code = 502 ∨ code = 503 ∨ code = 504 <;> simp [hA, hc]

/-- C6: Bedrock client construction with regions named by both the
provider URI host and `AWS_REGION` that disagree fails with an error
containing `mismatch` and yields no client; with only one region present
that one is used, and with neither the adapter default `us-west-2` is
used.  Construction is pure, so a mismatch error is produced before any
client (and hence any network call) exists. -/
theorem bedrockRegion_resolution (r1 r2 : String) :
    (r1 ≠ r2 → ∃ e, newBedrockClient (some r1) (some r2) = .error e ∧
      ∃ pre post, e = pre ++ "mismatch" ++ post) ∧
    newBedrockClient (some r1) none = .ok ⟨r1⟩ ∧
    newBedrockClient none (some r2) = .ok ⟨r2⟩ ∧
    newBedrockClient none none = .ok ⟨defaultBedrockRegion⟩ := by
  refine ⟨fun hne => ?_, rfl, rfl, rfl⟩
  refine ⟨"region mismatch: provider URI names " ++ r1 ++ " but AWS_REGION is " ++ r2,
    by simp [newBedrockClient, resolveBedrockRegion, hne],
    "region ", ": provider URI names " ++ r1 ++ " but AWS_REGION is " ++ r2, ?_⟩
  have hlit : "region mismatch: provider URI names " =
      "region " ++ "mismatch" ++ ": provider URI names " := by decide
  rw [hlit]
  simp only [String.append_assoc]

/-- Witness for C6: `us-east-1` from the URI against `eu-west-1` from the
environment fails with a mismatch error. -/
theorem bedrockRegion_resolution_witness :
    ∃ e, newBedrockClient (some "us-east-1") (some "eu-west-1") = .error e ∧
      ∃ pre post, e = pre ++ "mismatch" ++ post :=
  (bedrockRegion_resolution "us-east-1" "eu-west-1").1 (by decide)

/-- C9: `BashTool.Run` panics (via its unchecked type assertions) exactly
when the `command` argument is absent or not a string, or the context
does not carry string values under `kubeconfig` and `work_dir`; whenever
all three assertions succeed it returns normally (a structured result or
a spawned command, never a panic). -/
theorem bashToolRun_panics_iff (kc wd : Option GoValue)
    (args : List (String × GoValue)) :
    BashToolRun kc wd args = .panics ↔
      (goAssertString kc = none ∨ goAssertString wd = none ∨
        goAssertString (args.lookup "command") = none) := by
  unfold BashToolRun
  cases hkc : goAssertString kc with
  | none => simp
  | some kubeconfig =>
    cases hwd : goAssertString wd with
    | none => simp
    | some workDir =>
      cases hcmd : goAssertString (args.lookup "command") with
      | none => simp
      | some command =>
        simp only [Option.some_ne_none, or_self, iff_false]
        split
        · exact fun h => BashRunOutcome.noConfusion h
        · split
          · exact fun h => BashRunOutcome.noConfusion h
          · exact fun h => BashRunOutcome.noConfusion h

/-- C2 is refuted on the empty command: with valid context values and the
`command` argument equal to the empty string, `BashTool.Run` does not
return a `command not provided` result — it falls through both substring
checks and hands the empty command line to the executor, spawning the
shell.  (The `kubectl command not provided` rejection belongs to the
separate `Kubectl` tool, not to `BashTool.Run`.) -/
theorem bashToolRun_empty_command_counterexample :
    BashToolRun (some (.str "")) (some (.str "/work")) [("command", GoValue.str "")] =
      .spawn "" "/work" none := by
  decide

/-- C2 (amended): `BashTool.Run` returns a structured `ExecResult` (not
an exception) whose error reports interactive mode for commands
containing `kubectl edit`, and — when `kubectl edit` does not occur —
one whose error reports that port-forwarding is not allowed for commands
containing `kubectl port-forward`; in both cases no process is spawned.
An empty `command` string, however, is not rejected: `Run` proceeds to
spawn the shell on it. -/
theorem bashToolRun_validation (kc wd : Option GoValue)
    (args : List (String × GoValue)) (kubeconfig workDir command : String)
    (hkc : goAssertString kc = some kubeconfig)
    (hwd : goAssertString wd = some workDir)
    (hcmd : goAssertString (args.lookup "command") = some command) :
    (goStringsContains command "kubectl edit" = true →
      BashToolRun kc wd args = .result { error := interactiveModeError }) ∧
    (goStringsContains command "kubectl edit" = false →
      goStringsContains command "kubectl port-forward" = true →
      BashToolRun kc wd args = .result { error := portForwardError }) ∧
    (command = "" →
      BashToolRun kc wd args =
        .spawn "" workDir (if kubeconfig = "" then none else some kubeconfig)) := by
  refine ⟨fun h1 => ?_, fun h1 h2 => ?_, fun h0 => ?_⟩
  · simp [BashToolRun, hkc, hwd, hcmd, h1]
  · simp [BashToolRun, hkc, hwd, hcmd, h1, h2]
  · subst h0
    have e1 : goStringsContains "" "kubectl edit" = false := by decide
    have e2 : goStringsContains "" "kubectl port-forward" = false := by decide
    simp [BashToolRun, hkc, hwd, hcmd, e1, e2]

/-- Witness for C2 (amended): a `kubectl edit` command is rejected with
the interactive-mode result. -/
theorem bashToolRun_validation_witness :
    BashToolRun (some (.str "")) (some (.str "/work"))
      [("command", GoValue.str "kubectl edit pod x")] =
      .result { error := interactiveModeError } :=
  (bashToolRun_validation (some (.str "")) (some (.str "/work"))
    [("command", GoValue.str "kubectl edit pod x")] "" "/work" "kubectl edit pod x"
    rfl rfl rfl).1 (by decide)

/-- C1 is refuted on the Gemini chat: starting from an empty tool list,
`SetFunctionDefinitions([a])` followed by `SetFunctionDefinitions([b])`
leaves the chat advertising both `a` and `b` — Gemini's implementation
appends a new tool group to `model.Tools` instead of replacing the
catalog, so the advertised catalog is not `[b]` alone. -/
theorem gemini_setFunctionDefinitions_appends_counterexample :
    (geminiAdvertised
      (geminiSetFunctionDefinitions
        (geminiSetFunctionDefinitions []
          [{ name := "a", description := "da",
             parameters := .mk TypeString "" none [] none }]).1
        [{ name := "b", description := "db",
           parameters := .mk TypeString "" none [] none }]).1).map
      GeminiFunctionDeclaration.name = ["a", "b"] ∧
    (["a", "b"] : List String) ≠ ["b"] := by
  constructor
  · rfl
  · decide

/-- C1 (amended): `SetFunctionDefinitions` replaces the tool catalog on
the Azure OpenAI chat — after two successive calls the catalog is the
translation of the second argument alone, whatever was installed before.
On the Gemini chat it instead appends: two successful calls leave the
prior tool groups followed by a group for the first argument and a group
for the second, so the advertised catalog is the old catalog extended
with the declarations of both calls in order. -/
theorem setFunctionDefinitions_replacement_vs_append
    (toolsG : List (List GeminiFunctionDeclaration)) (toolsA : List AzureFunctionTool)
    (A B : List FunctionDefinition) (dA dB : List GeminiFunctionDeclaration)
    (hA : convertGeminiDefs A = .ok dA) (hB : convertGeminiDefs B = .ok dB) :
    (azureSetFunctionDefinitions (azureSetFunctionDefinitions toolsA A) B =
      B.map fnDefToAzureOpenAITool) ∧
    ((geminiSetFunctionDefinitions (geminiSetFunctionDefinitions toolsG A).1 B).1 =
      toolsG ++ [dA] ++ [dB]) ∧
    (geminiAdvertised
        (geminiSetFunctionDefinitions (geminiSetFunctionDefinitions toolsG A).1 B).1 =
      geminiAdvertised toolsG ++ dA ++ dB) := by
  refine ⟨rfl, ?_, ?_⟩
  · simp [geminiSetFunctionDefinitions, hA, hB]
  · simp [geminiSetFunctionDefinitions, hA, hB, geminiAdvertised]

/-- Witness for C1 (amended): concrete two-call run on both adapters. -/
theorem setFunctionDefinitions_replacement_vs_append_witness :
    (azureSetFunctionDefinitions
      (azureSetFunctionDefinitions []
        [{ name := "a", description := "da",
           parameters := .mk TypeString "" none [] none }])
      [{ name := "b", description := "db",
         parameters := .mk TypeString "" none [] none }] =
      [{ name := "b", description := "db", paramProperties := [], required := none }]) ∧
    ((geminiSetFunctionDefinitions
      (geminiSetFunctionDefinitions []
        [{ name := "a", description := "da",
           parameters := .mk TypeString "" none [] none }]).1
      [{ name := "b", description := "db",
         parameters := .mk TypeString "" none [] none }]).1 =
      [] ++ [[{ name := "a", description := "da", parameters := .mk TypeString "" [] none }]]
        ++ [[{ name := "b", description := "db", parameters := .mk TypeString "" [] none }]]) := by
  have h := setFunctionDefinitions_replacement_vs_append []
    []
    [{ name := "a", description := "da", parameters := .mk TypeString "" none [] none }]
    [{ name := "b", description := "db", parameters := .mk TypeString "" none [] none }]
    [{ name := "a", description := "da", parameters := .mk TypeString "" [] none }]
    [{ name := "b", description := "db", parameters := .mk TypeString "" [] none }]
    rfl rfl
  exact ⟨h.1, h.2.1⟩

/-- Once the decoder has recorded a syntax error with input left, the
loop makes no progress: `More` keeps seeing buffered bytes and `Decode`
keeps returning the stored error, so every fuel budget is exhausted. -/
theorem chatMessagesLoop_stuck {M : Type} (fuel : Nat) (e : HistEntry M)
    (rest : List (HistEntry M)) (acc : List M) :
    chatMessagesLoop fuel (e :: rest) true acc = none := by
  induction fuel with
  | zero => rfl
  | succ n ih => simpa [chatMessagesLoop] using ih

/-- The loop consumes a run of well-formed entries, accumulating them. -/
theorem chatMessagesLoop_ok_run {M : Type} (l : List M) :
    ∀ (fuel : Nat) (acc : List M), l.length < fuel →
      chatMessagesLoop fuel (l.map HistEntry.ok) false acc =
        some (acc.reverse ++ l) := by
  induction l with
  | nil =>
    intro fuel acc hf
    match fuel, hf with
    | n + 1, _ => simp [chatMessagesLoop]
  | cons m rest ih =>
    intro fuel acc hf
    match fuel, hf with
    | n + 1, hf =>
      have : rest.length < n := by simpa using hf
      simp [chatMessagesLoop, ih n (m :: acc) this]

/-- Appending messages one by one produces a file of well-formed entries
in append order. -/
theorem addChatMessage_foldl {M : Type} (ms : List M) :
    ∀ file : List (HistEntry M),
      ms.foldl addChatMessage file = file ++ ms.map HistEntry.ok := by
  induction ms with
  | nil => intro file; simp
  | cons m rest ih => intro file; simp [addChatMessage, ih]

/-- C5: the file store round-trips well-formed appends — reading back a
history built by `AddChatMessage` alone returns exactly the appended
messages in order — but a syntactically corrupted entry is *not*
skipped: `ChatMessages` never returns at all on such a file (the
`json.Decoder` stores the syntax error without advancing, `More` stays
true, and the `continue` spins forever), so one corrupted message does
prevent every following well-formed message from being returned, for
any number of loop iterations. -/
theorem chatMessages_roundtrip_and_syntax_error_blocks {M : Type} (ms : List M) (m : M)
    (fuel : Nat) :
    chatMessagesGo (ms.length + 1) (ms.foldl addChatMessage []) = some ms ∧
    chatMessagesGo fuel [HistEntry.badSyntax, HistEntry.ok m] = none := by
  constructor
  · rw [addChatMessage_foldl ms []]
    simpa [chatMessagesGo] using chatMessagesLoop_ok_run ms (ms.length + 1) [] (by omega)
  · match fuel with
    | 0 => rfl
    | n + 1 =>
      show chatMessagesLoop (n + 1) [HistEntry.badSyntax, HistEntry.ok m] false [] = none
      simp [chatMessagesLoop, chatMessagesLoop_stuck]

/-- The property conversion is a map of the recursive conversion over
the (possibly absent) property list. -/
theorem convertPropsOpenAI_eq (props : Option (List (String × Schema))) :
    convertPropsOpenAI props =
      (props.getD []).map (fun kv => (kv.1, convertSchemaOpenAI kv.2)) := by
  match props with
  | none => simp [convertPropsOpenAI]
  | some l =>
    induction l with
    | nil => simp [convertPropsOpenAI]
    | cons kv rest ih =>
      obtain ⟨k, v⟩ := kv
      simp only [convertPropsOpenAI, ih, Option.getD_some, List.map_cons]

/-- C8: on every schema in the uniform form, the OpenAI translation
preserves the type except for the integer-to-number downgrade, preserves
the required list and description, descends recursively into the
property map (preserving the property-name set) and into the item
schema; an object schema with a `nil` property map gets a non-nil empty
one, and an array schema with no item schema gets string items. -/
theorem convertSchemaForOpenAI_spec (S : Schema) (hS : validSchema S = true) :
    ((convertSchemaForOpenAI (some S)).type =
      if S.type = TypeInteger then TypeNumber else S.type) ∧
    ((convertSchemaForOpenAI (some S)).required = S.required) ∧
    ((convertSchemaForOpenAI (some S)).description = S.description) ∧
    (S.type = TypeObject →
      (convertSchemaForOpenAI (some S)).properties =
        some ((S.properties.getD []).map fun kv => (kv.1, convertSchemaOpenAI kv.2))) ∧
    (S.type = TypeObject →
      ((convertSchemaForOpenAI (some S)).properties.getD []).map Prod.fst =
        (S.properties.getD []).map Prod.fst) ∧
    (S.type = TypeObject → S.properties = none →
      (convertSchemaForOpenAI (some S)).properties = some []) ∧
    (S.type = TypeArray → ∀ i, S.items = some i →
      (convertSchemaForOpenAI (some S)).items = some (convertSchemaOpenAI i)) ∧
    (S.type = TypeArray → S.items = none →
      (convertSchemaForOpenAI (some S)).items =
        some (.mk TypeString "" none [] none)) := by
  obtain ⟨ty, desc, props, req, items⟩ := S
  have hty : ty = TypeObject ∨ ty = TypeString ∨ ty = TypeNumber ∨ ty = TypeInteger ∨
      ty = TypeBoolean ∨ ty = TypeArray := by
    have h := hS
    simp [validSchema] at h
    exact h.1.1
  rcases hty with h | h | h | h | h | h <;> subst h <;>
    simp [convertSchemaForOpenAI, convertSchemaOpenAI, convertPropsOpenAI_eq,
      Schema.type, Schema.description, Schema.properties, Schema.required, Schema.items,
      TypeObject, TypeString, TypeNumber, TypeInteger, TypeBoolean, TypeArray]
  · intro hnone
    simp [hnone]
  · constructor
    · intro i hi
      simp [hi, convertItemsOpenAI]
    · intro hnone
      simp [hnone, convertItemsOpenAI, TypeString]

/-- Witness for C8: a concrete object schema with an integer and a string
property. -/
theorem convertSchemaForOpenAI_spec_witness :
    (convertSchemaForOpenAI (some (.mk TypeObject "d"
        (some [("age", .mk TypeInteger "" none [] none),
               ("name", .mk TypeString "" none [] none)]) ["name"] none))).required =
      ["name"] ∧
    (convertSchemaForOpenAI (some (.mk TypeObject "d"
        (some [("age", .mk TypeInteger "" none [] none),
               ("name", .mk TypeString "" none [] none)]) ["name"] none))).type =
      if (Schema.mk TypeObject "d"
        (some [("age", .mk TypeInteger "" none [] none),
               ("name", .mk TypeString "" none [] none)]) ["name"] none).type = TypeInteger
      then TypeNumber
      else (Schema.mk TypeObject "d"
        (some [("age", .mk TypeInteger "" none [] none),
               ("name", .mk TypeString "" none [] none)]) ["name"] none).type := by
  have h := convertSchemaForOpenAI_spec
    (.mk TypeObject "d"
      (some [("age", .mk TypeInteger "" none [] none),
             ("name", .mk TypeString "" none [] none)]) ["name"] none)
    (by simp [validSchema, validProps, validItems, TypeObject, TypeString, TypeInteger])
  exact ⟨h.2.1, h.1⟩

/-- The attempt loop never invokes the operation more often than it has
iterations available. -/
theorem retryLoop_count_le {T E : Type} (maxA : Int) (op : Nat → Except E T)
    (isR : E → Bool) (cda cdw : Nat → Bool) :
    ∀ (r a : Nat) (last : Option E),
      (retryLoop maxA op isR cda cdw a r last).2 ≤ r := by
  intro r
  induction r with
  | zero => intro a last; simp [retryLoop]
  | succ n ih =>
    intro a last
    cases hop : op a with
    | ok t => simp [retryLoop, hop]
    | error e =>
      simp only [retryLoop, hop]
      split
      · simp
      · split
        · simp
        · split
          · simp
          · split
            · simp
            · simpa using Nat.succ_le_succ (ih (a + 1) (some e))

/-- With at least one iteration available the operation is invoked at
least once. -/
theorem retryLoop_count_pos {T E : Type} (maxA : Int) (op : Nat → Except E T)
    (isR : E → Bool) (cda cdw : Nat → Bool) (a r : Nat) (last : Option E)
    (hr : 1 ≤ r) : 1 ≤ (retryLoop maxA op isR cda cdw a r last).2 := by
  match r, hr with
  | n + 1, _ =>
    cases hop : op a with
    | ok t => simp [retryLoop, hop]
    | error e =>
      simp only [retryLoop, hop]
      split
      · simp
      · split
        · simp
        · split
          · simp
          · split
            · simp
            · simp

/-- If every attempt before `a + k` proceeds (fails retryably with no
cancellation observed), the loop reaches attempt `a + k`, and what
happens there determines the result: a success is returned as the
result of the `k + 1`-st invocation, a cancellation observed after a
failure returns the context error, and a non-retryable failure is
returned immediately. -/
theorem retryLoop_reach {T E : Type} (maxA : Int) (op : Nat → Except E T)
    (isR : E → Bool) (cda cdw : Nat → Bool) :
    ∀ (k a r : Nat) (last : Option E), k < r →
      (∀ j, a ≤ j → j < a + k → CleanAt op isR cda cdw j) →
      ((∀ t, op (a + k) = .ok t →
          retryLoop maxA op isR cda cdw a r last = (.success t, k + 1)) ∧
       (∀ e, op (a + k) = .error e → cda (a + k) = true →
          retryLoop maxA op isR cda cdw a r last = (.ctxError, k + 1)) ∧
       (∀ e, op (a + k) = .error e → cda (a + k) = false → isR e = false →
          retryLoop maxA op isR cda cdw a r last = (.failed e, k + 1))) := by
  intro k
  induction k with
  | zero =>
    intro a r last hr hclean
    match r, hr with
    | n + 1, _ =>
      refine ⟨fun t ht => ?_, fun e he hc => ?_, fun e he hc hnr => ?_⟩
      · simp [retryLoop, show op a = .ok t by simpa using ht]
      · simp [retryLoop, show op a = .error e by simpa using he,
          show cda a = true by simpa using hc]
      · simp [retryLoop, show op a = .error e by simpa using he,
          show cda a = false by simpa using hc, hnr]
  | succ k ih =>
    intro a r last hr hclean
    match r, hr with
    | n + 1, hr =>
      obtain ⟨e₀, hop₀, hretr₀, hcda₀, hcdw₀⟩ := hclean a (le_refl a) (by omega)
      have hn : ¬ n = 0 := by omega
      have hrec := ih (a + 1) n (some e₀) (by omega)
        (fun j hj1 hj2 => hclean j (by omega) (by omega))
      have hidx : a + 1 + k = a + (k + 1) := by omega
      rw [hidx] at hrec
      refine ⟨fun t ht => ?_, fun e he hc => ?_, fun e he hc hnr => ?_⟩
      · have hr1 := hrec.1 t ht
        simp [retryLoop, hop₀, hcda₀, hretr₀, hn, hcdw₀, hr1]
      · have hr2 := hrec.2.1 e he hc
        simp [retryLoop, hop₀, hcda₀, hretr₀, hn, hcdw₀, hr2]
      · have hr3 := hrec.2.2 e he hc hnr
        simp [retryLoop, hop₀, hcda₀, hretr₀, hn, hcdw₀, hr3]

/-- C3: with `MaxAttempts ≥ 1`, `Retry` invokes the operation at least
once and at most `MaxAttempts` times.  Whenever the first `k - 1`
attempts fail retryably without an observed cancellation and attempt `k`
is within budget: a success at attempt `k` is returned as the result
with exactly `k` invocations; a failure at attempt `k` with the context
observed cancelled right after the call returns the context error; and a
non-retryable failure at attempt `k` is returned immediately, with no
further attempts in every case. -/
theorem retry_attempt_semantics {T E : Type} (cfg : RetryConfig)
    (op : Nat → Except E T) (isRetryable : E → Bool)
    (ctxDoneAfter ctxDoneDuringWait : Nat → Bool) (hmax : 1 ≤ cfg.maxAttempts) :
    (1 ≤ (RetryGo cfg op isRetryable ctxDoneAfter ctxDoneDuringWait).2 ∧
      ((RetryGo cfg op isRetryable ctxDoneAfter ctxDoneDuringWait).2 : Int) ≤
        cfg.maxAttempts) ∧
    ∀ k : Nat, 1 ≤ k → (k : Int) ≤ cfg.maxAttempts →
      (∀ j, 1 ≤ j → j < k → CleanAt op isRetryable ctxDoneAfter ctxDoneDuringWait j) →
      ((∀ t, op k = .ok t →
          RetryGo cfg op isRetryable ctxDoneAfter ctxDoneDuringWait = (.success t, k)) ∧
       (∀ e, op k = .error e → ctxDoneAfter k = true →
          RetryGo cfg op isRetryable ctxDoneAfter ctxDoneDuringWait = (.ctxError, k)) ∧
       (∀ e, op k = .error e → ctxDoneAfter k = false → isRetryable e = false →
          RetryGo cfg op isRetryable ctxDoneAfter ctxDoneDuringWait = (.failed e, k))) := by
  have htn : 1 ≤ cfg.maxAttempts.toNat := by omega
  constructor
  · constructor
    · exact retryLoop_count_pos cfg.maxAttempts op isRetryable ctxDoneAfter
        ctxDoneDuringWait 1 cfg.maxAttempts.toNat none htn
    · have hle := retryLoop_count_le cfg.maxAttempts op isRetryable ctxDoneAfter
        ctxDoneDuringWait cfg.maxAttempts.toNat 1 none
      simp only [RetryGo]
      omega
  · intro k hk1 hk2 hclean
    have hkr : k - 1 < cfg.maxAttempts.toNat := by omega
    have h := retryLoop_reach cfg.maxAttempts op isRetryable ctxDoneAfter
      ctxDoneDuringWait (k - 1) 1 cfg.maxAttempts.toNat none hkr
      (fun j hj1 hj2 => hclean j hj1 (by omega))
    have hidx : 1 + (k - 1) = k := by omega
    have hcnt : k - 1 + 1 = k := by omega
    rw [hidx, hcnt] at h
    exact h

/-- Witness for C3: two attempts allowed, the first fails retryably, the
second succeeds — the success is returned after exactly two
invocations. -/
theorem retry_attempt_semantics_witness :
    RetryGo ⟨2⟩ (fun n => if n = 1 then (Except.error 0 : Except Nat Nat) else .ok 5)
      (fun _ => true) (fun _ => false) (fun _ => false) = (.success 5, 2) := by
  have h := retry_attempt_semantics (⟨2⟩ : RetryConfig)
    (fun n => if n = 1 then (Except.error 0 : Except Nat Nat) else .ok 5)
    (fun _ => true) (fun _ => false) (fun _ => false) (by decide)
  refine (h.2 2 (by decide) (by decide) ?_).1 5 rfl
  intro j hj1 hj2
  have hj : j = 1 := by omega
  subst hj
  exact ⟨0, rfl, rfl, rfl, rfl⟩

end KubectlAI
